import Mathlib

set_option maxHeartbeats 1000000
set_option maxRecDepth 8000
set_option linter.unusedVariables false

/-!
Verification of the Nexusfi contracts (factory + index-fund token) against their
natural-language specification.  The Rust sources are shallowly embedded:

* NEAR `AccountId` values are modelled as `String`.
* `u8`/`u64`/`u128` values are modelled as `Nat`; where overflow matters the
  checks of the standard NEAR release profile (`overflow-checks = true`) are
  made explicit, and lossy `as` casts are modelled with `% 2 ^ w`.
* `std::collections::HashMap` and `near_sdk::store::IterableMap` are modelled
  as association lists (`List (String × α)`); `IterableMap` iterates in
  insertion order, which the association list preserves.
* A host invocation either completes, returning the new state, or panics; NEAR
  rolls back all state changes of a panicked function call, so a panicking
  invocation is modelled as `Option.none` / `Except.error` with the state
  unchanged.  Promises issued by an invocation are returned as explicit data.
-/

namespace Nexusfi

/-! ## Association-list model of the contracts' key-value maps -/

/-- `HashMap::get` / `IterableMap::get`: first entry with the given key. -/
def lookupA {α : Type} : List (String × α) → String → Option α
  | [], _ => none
  | p :: rest, k => if p.1 = k then some p.2 else lookupA rest k

/-- `HashMap::insert` / `entry().or_insert` + assignment: replace the value of
an existing key in place, otherwise append the new entry at the end. -/
def upsertA {α : Type} : List (String × α) → String → α → List (String × α)
  | [], k, v => [(k, v)]
  | p :: rest, k, v => if p.1 = k then (k, v) :: rest else p :: upsertA rest k v


/-! ## Data model of the factory (src/contracts/factory/src/lib.rs) -/

/-- Lines 22–29: metadata of one asset in a fund (`contract_address` is a NEAR
`AccountId` in one factory variant and a `String` in the others; both are
modelled as `String`).  `weight` is a `u8`. -/
structure AssetInfo where
  name : String
  contract_address : String
  weight : Nat
deriving DecidableEq

/-- Lines 13–20: metadata of an index fund. -/
structure FundMetadata where
  name : String
  symbol : String
  description : Option String
  assets : List AssetInfo
deriving DecidableEq

/-- Lines 31–39: record of a deployed fund (`total_supply` is a `U128`,
`creation_timestamp` a `u64` of nanoseconds). -/
structure Fund where
  metadata : FundMetadata
  token_address : String
  total_supply : Nat
  creation_timestamp : Nat
deriving DecidableEq

/-- Lines 42–48: persistent state of the `IndexFundFactory` contract.  The
`IterableMap` of funds is the association list in insertion order. -/
structure FactoryState where
  owner_id : String
  funds : List (String × Fund)
  fund_creation_deposit : Nat
deriving DecidableEq

/-- The parts of the NEAR host environment the factory reads. -/
structure HostEnv where
  predecessor_account_id : String
  current_account_id : String
  attached_deposit : Nat
  block_timestamp : Nat
deriving DecidableEq

/-- Line 9: `NEAR_PER_STORAGE = NearToken::from_yoctonear(10u128.pow(19))`. -/
def NEAR_PER_STORAGE : Nat := 10 ^ 19

/-- `NearToken::from_millinear(100)` in yoctoNEAR (1 milliNEAR = `10^21` yocto). -/
def MILLINEAR_100 : Nat := 100 * 10 ^ 21

def U128_MAX : Nat := 2 ^ 128 - 1

/-- `NearToken::saturating_mul` / `saturating_add` clamp at `u128::MAX`. -/
def satU128 (n : Nat) : Nat := min n U128_MAX

/-- Line 77 (and token line 56): `metadata.assets.iter().map(|a| a.weight).sum::<u8>()`
under the standard NEAR release profile (`overflow-checks = true`): each `u8`
addition panics on overflow, so the sum is `none` whenever it would exceed 255. -/
def weightSum (assets : List AssetInfo) : Option Nat :=
  assets.foldl
    (fun acc a => acc.bind fun s => if s + a.weight ≤ 255 then some (s + a.weight) else none)
    (some 0)

/-- The single logical deployment batch issued by `create_fund` (lines 94–112):
create account, transfer the whole attached deposit, deploy the token code,
call its initializer with `(predecessor, assets)`, optionally add a key, and
register the completion callback. -/
structure CreateFundBatch where
  subaccount_id : String
  transfer_amount : Nat
  init_caller : String
  init_assets : List AssetInfo
  add_full_access_key : Option String
  callback_prefix : String
  callback_metadata : FundMetadata
  callback_token_address : String
deriving DecidableEq

/-- Lines 62–113: `create_fund`.  A panic (failed `assert!` or
`subaccount_id.parse().unwrap()`) is an `Except.error`; the contract state is
rolled back, so the successful result carries the (unchanged) state together
with the issued deployment batch.  `wasmLen` is `DEFAULT_TOKEN_WASM.len()`
(the embedded wasm blob is not part of the sources) and `validAccount` is
`AccountId` well-formedness as checked by `str::parse` (external `near_sdk`
code).  The `src/contracts/src/lib.rs` variant differs only in lacking the
`minimum_needed` assert and the callback; its deposit and weight checks are
identical. -/
def create_fund (wasmLen : Nat) (validAccount : String → Bool)
    (s : FactoryState) (env : HostEnv)
    (pfx : String) (metadata : FundMetadata) (public_key : Option String) :
    Except String (FactoryState × CreateFundBatch) :=
  if env.attached_deposit < s.fund_creation_deposit then
    Except.error "Insufficient deposit for fund creation"
  else if weightSum metadata.assets ≠ some 100 then
    -- the checked-sum overflow panic and the `assert_eq!` failure are both
    -- panics; they are merged into one error branch (message of the assert)
    Except.error "Total weight must be 100%"
  else if env.attached_deposit < satU128 (satU128 (NEAR_PER_STORAGE * wasmLen) + MILLINEAR_100) then
    Except.error "Attach at least minimum_needed yoctoNEAR"
  else if validAccount (pfx ++ "." ++ env.current_account_id) then
    Except.ok (s,
      { subaccount_id := pfx ++ "." ++ env.current_account_id
        transfer_amount := env.attached_deposit
        init_caller := env.predecessor_account_id
        init_assets := metadata.assets
        add_full_access_key := public_key
        callback_prefix := pfx
        callback_metadata := metadata
        callback_token_address := pfx ++ "." ++ env.current_account_id })
  else Except.error "invalid subaccount id"

/-- A `Promise::new(receiver).transfer(amount)` issued during an invocation. -/
structure Transfer where
  receiver_id : String
  amount : Nat
deriving DecidableEq

/-- Lines 116–139: `on_fund_created_callback`.  `result_ok` is whether the
deployment batch succeeded (`#[callback_result] result : Result<(), PromiseError>`).
The callback reads `env::predecessor_account_id()` and `env::attached_deposit()`
from its own invocation environment `env`; it returns the new state, the
transfers it issued, and its boolean result. -/
def on_fund_created_callback (s : FactoryState) (env : HostEnv)
    (pfx : String) (metadata : FundMetadata) (token_address : String)
    (result_ok : Bool) : FactoryState × List Transfer × Bool :=
  if result_ok then
    let fund : Fund :=
      { metadata := metadata
        token_address := token_address
        total_supply := 0
        creation_timestamp := env.block_timestamp }
    ({ s with funds := upsertA s.funds pfx fund }, [], true)
  else
    (s, [{ receiver_id := env.predecessor_account_id, amount := env.attached_deposit }], false)

/-- Default `Fund` used to model the (unreachable) `None` branch of
`self.funds.get(*key).unwrap()` inside `get_funds`. -/
def defaultFund : Fund :=
  { metadata := { name := "", symbol := "", description := none, assets := [] }
    token_address := ""
    total_supply := 0
    creation_timestamp := 0 }

/-- Lines 145–161: `get_funds`.  The contract runs on wasm32, so `usize` is
32 bits wide: `from_index.try_into()` (`u64 → usize`) panics with
"Invalid from_index" when `from_index ≥ 2^32`; `(from_index + limit) as usize`
is a checked `u64` addition (overflow-checks) followed by a truncating cast
(`% 2^32`).  `keys[start..end]` panics when `start > end`. -/
def get_funds (s : FactoryState) (from_index limit : Nat) :
    Except String (List (String × Fund)) :=
  if from_index < 2 ^ 32 then
    if from_index + limit < 2 ^ 64 then
      if from_index ≤ min ((from_index + limit) % 2 ^ 32) (s.funds.map Prod.fst).length then
        Except.ok ((((s.funds.map Prod.fst).drop from_index).take
            (min ((from_index + limit) % 2 ^ 32) (s.funds.map Prod.fst).length - from_index)).map
          fun k => (k, (lookupA s.funds k).getD defaultFund))
      else Except.error "slice index starts after slice end"
    else Except.error "attempt to add with overflow"
  else Except.error "Invalid from_index"



/-! ## Exact model of IEEE-754 binary64 arithmetic

`process_deposit_with_prices` (src/token/src/lib.rs lines 169–180) computes
the per-asset quantities in `f64`.  The binary64 operations used there
(integer→float conversion, multiplication, division, float→integer cast) are
modelled exactly over nonnegative fractions: every binary64 arithmetic result
is the exact rational result rounded to 53 significant bits,
round-to-nearest, ties to even. -/

/-- A nonnegative fraction `num / den` (`den ≠ 0` at every use site).  All
values in the deposit arithmetic are nonnegative, so `Nat` components
suffice; fractions are not kept reduced. -/
structure Frac where
  num : Nat
  den : Nat
deriving DecidableEq

/-- The rational value of a fraction. -/
def Frac.toRat (f : Frac) : ℚ := (f.num : ℚ) / (f.den : ℚ)

/-- Binary digit count of `n` (0 for 0), via an explicit fuel argument so that
the definition reduces structurally; `bitLen n = ⌊log2 n⌋ + 1` for `n ≥ 1`. -/
def bitLenAux : Nat → Nat → Nat
  | 0, _ => 0
  | fuel + 1, n => if n = 0 then 0 else bitLenAux fuel (n / 2) + 1

def bitLen (n : Nat) : Nat := bitLenAux n n

/-- `num / den < 2 ^ e`, by cross-multiplication. -/
def fracLtPow2 (num den : Nat) (e : ℤ) : Bool :=
  if 0 ≤ e then num < 2 ^ e.toNat * den else num * 2 ^ (-e).toNat < den

/-- For `num / den > 0`, the smallest `e : ℤ` with `num / den < 2 ^ e`, found
next to the bit-length difference of numerator and denominator. -/
def binExpF (num den : Nat) : ℤ :=
  let e0 : ℤ := (bitLen num : ℤ) - (bitLen den : ℤ) - 1
  if fracLtPow2 num den e0 then e0
  else if fracLtPow2 num den (e0 + 1) then e0 + 1
  else if fracLtPow2 num den (e0 + 2) then e0 + 2
  else e0 + 3

/-- Round `num / den` to the nearest integer, ties to even. -/
def rnEvenF (num den : Nat) : Nat :=
  if 2 * (num % den) < den then num / den
  else if den < 2 * (num % den) then num / den + 1
  else if num / den % 2 = 0 then num / den else num / den + 1

/-- IEEE-754 binary64 rounding of the nonnegative rational `num / den`: scale
into `[2^52, 2^53)`, round to the nearest integer significand (ties to even),
scale back.  The exponent is left unbounded; every value arising in this
development is many orders of magnitude inside the binary64 exponent range,
where this model coincides with IEEE-754 (round-to-nearest-even). -/
def flF (num den : Nat) : Frac :=
  if num = 0 then ⟨0, 1⟩
  else
    let e := binExpF num den
    let m := if 0 ≤ 53 - e then rnEvenF (num * 2 ^ (53 - e).toNat) den
             else rnEvenF num (den * 2 ^ (e - 53).toNat)
    if 0 ≤ e - 53 then ⟨m * 2 ^ (e - 53).toNat, 1⟩ else ⟨m, 2 ^ (53 - e).toNat⟩

/-- Lines 169–179: the per-asset quantity
`(amount as f64 * (weight as f64 / 100.0) / ((multiplier as f64) / (10u64.pow(decimals) as f64))) as u128`,
with every binary64 operation modelled exactly: an `int → f64` conversion and
each multiplication/division round the exact rational result to 53 bits
(`f64::from(weight)` is exact for a `u8` and `100.0` is exact, so
`weight_fraction` carries one rounded division).  Division by `price = 0.0`
(a zero multiplier) yields `+inf` (or NaN for `0.0 / 0.0`), which `as u128`
saturates to `u128::MAX` (resp. 0); otherwise `as u128` truncates toward
zero. -/
def assetAmount (amount weight multiplier decimals : Nat) : Nat :=
  let pnum := flF multiplier 1
  let pden := flF (10 ^ decimals) 1
  let price := flF (pnum.num * pden.den) (pnum.den * pden.num)
  let wf := flF weight 100
  let amt := flF amount 1
  let x := flF (amt.num * wf.num) (amt.den * wf.den)
  if price.num = 0 then (if x.num = 0 then 0 else 2 ^ 128 - 1)
  else
    let q := flF (x.num * price.den) (x.den * price.num)
    min (q.num / q.den) (2 ^ 128 - 1)

/-! ## Data model of the index-fund token (src/token/src/lib.rs) -/

/-- Line 64: the stable-asset (USDC) ledger account hard-coded by `Contract::new`. -/
def USDC_CONTRACT_ID : String :=
  "3e2210e1184b45b64c8a434c0a7e7b23cc04ea7eb7a6c3c32520d03d4afcb8af"

/-- Lines 39–49: persistent state of the token contract.  `user_balances` maps
a depositor to its per-asset ledger row. -/
structure TokenState where
  total_assets : Nat
  assets : List AssetInfo
  owner_id : String
  user_balances : List (String × List (String × Nat))
  usdc_contract : String
  oracle_contract : String
  latest_signed_txs : List (List Nat)
deriving DecidableEq

/-- Lines 53–69: `Contract::new`.  Panics (`none`) unless the asset weights
sum to 100 (checked `u8` sum, merging the overflow panic with the assert as in
`create_fund`); hard-codes the USDC and oracle accounts.  The struct literal
in the source omits `latest_signed_txs` (a slip — the struct has the field but
`new` does not set it); a fresh contract has an empty history. -/
def Contract.new (owner_id : String) (assets : List AssetInfo) : Option TokenState :=
  if weightSum assets ≠ some 100 then none
  else some
    { total_assets := 0
      assets := assets
      owner_id := owner_id
      user_balances := []
      usdc_contract := USDC_CONTRACT_ID
      oracle_contract := "priceoracle.testnet"
      latest_signed_txs := [] }

/-- Oracle response entry: `{asset_id, price?: {multiplier, decimals}}`.  The
string-typed `multiplier` is modelled after its `parse().unwrap_or(0)`. -/
structure PriceInfo where
  multiplier : Nat
  decimals : Nat
deriving DecidableEq

structure AssetPriceEntry where
  asset_id : String
  price : Option PriceInfo
deriving DecidableEq

/-- Oracle response `{timestamp, recency_duration_sec, prices}`; `timestamp`
is modelled after its `parse::<u64>().unwrap_or(0)`. -/
structure OraclePriceData where
  timestamp : Nat
  recency_duration_sec : Nat
  prices : List AssetPriceEntry
deriving DecidableEq

/-- Lines 102–141: `get_asset_prices_callback`.  Panics (`none`) when the
oracle call failed, when `current_time - timestamp` underflows or
`recency_duration_sec * 1_000_000_000` overflows `u64` (checked arithmetic),
or when the data is stale (`current_time - timestamp ≥ recency * 10^9`).
Otherwise builds the per-asset price map restricted to the fund's assets.
`tokenAddresses` models the `TOKEN_ADDRESSES` static table, which is not part
of the provided sources (modelled from the spec: §4.2 "maps external asset
identifiers to internal asset keys via a static lookup table"). -/
def get_asset_prices_callback (tokenAddresses : String → Option String)
    (assets : List AssetInfo) (current_time : Nat)
    (call_result : Option OraclePriceData) : Option (List (String × Nat × Nat)) :=
  match call_result with
  | none => none
  | some prices =>
    if prices.timestamp ≤ current_time
        ∧ prices.recency_duration_sec * 1000000000 < 2 ^ 64
        ∧ current_time - prices.timestamp < prices.recency_duration_sec * 1000000000 then
      let asset_prices := prices.prices.foldl
        (fun m pd => match pd.price with
          | some p => upsertA m pd.asset_id (p.multiplier, p.decimals)
          | none => m) []
      some (assets.foldl
        (fun m a => match tokenAddresses a.contract_address.toLower with
          | some na =>
            match lookupA asset_prices na with
            | some pd => upsertA m a.contract_address pd
            | none => m
          | none => m) [])
    else none

/-- The per-asset credit loop of `process_deposit_with_prices` (lines
169–180): assets without a resolved price are skipped; `10_u64.pow(decimals)`
panics for `decimals ≥ 20` and the `u128` balance addition is checked. -/
def creditAssets (asset_prices : List (String × Nat × Nat)) (amount : Nat) :
    List AssetInfo → List (String × Nat) → Option (List (String × Nat))
  | [], balances => some balances
  | a :: rest, balances =>
    match lookupA asset_prices a.contract_address with
    | none => creditAssets asset_prices amount rest balances
    | some (multiplier, decimals) =>
      if 10 ^ decimals < 2 ^ 64 then
        if (lookupA balances a.contract_address).getD 0
            + assetAmount amount a.weight multiplier decimals ≤ U128_MAX then
          creditAssets asset_prices amount rest
            (upsertA balances a.contract_address
              ((lookupA balances a.contract_address).getD 0
                + assetAmount amount a.weight multiplier decimals))
        else none
      else none

/-- Lines 152–188: `process_deposit_with_prices`.  `prices_result = none` is
the `Err` callback case (`env::panic_str`).  The source inserts the empty
ledger row (`entry().or_insert_with(HashMap::new)`) before the loop; since a
panic rolls the whole invocation back, committing the row once at the end is
equivalent at invocation granularity. -/
def process_deposit_with_prices (s : TokenState) (sender_id : String) (amount : Nat)
    (prices_result : Option (List (String × Nat × Nat))) : Option TokenState :=
  match prices_result with
  | none => none
  | some asset_prices =>
    match creditAssets asset_prices amount s.assets
        ((lookupA s.user_balances sender_id).getD []) with
    | none => none
    | some ub =>
      if s.total_assets + amount ≤ U128_MAX then
        some { s with user_balances := upsertA s.user_balances sender_id ub
                      total_assets := s.total_assets + amount }
      else none

/-- The deposit promise chain (lines 143–150): `process_deposit` chains
`get_asset_prices` (whose callback is `get_asset_prices_callback`) into
`process_deposit_with_prices`; if the price callback panics, the final
callback receives `Err`. -/
def deposit_pipeline (tokenAddresses : String → Option String) (s : TokenState)
    (sender_id : String) (amount : Nat) (current_time : Nat)
    (oracle_result : Option OraclePriceData) : Option TokenState :=
  process_deposit_with_prices s sender_id amount
    (get_asset_prices_callback tokenAddresses s.assets current_time oracle_result)

/-- Lines 31–37: fee/nonce parameters of the foreign chain. -/
structure NetworkDetails where
  chain_id : Nat
  eth_nonce : Nat
  max_priority_fee_per_gas : Nat
  max_fee_per_gas : Nat
  gas_limit : Nat
deriving DecidableEq

/-- Lines 21–27: destination parameters of `withdraw_underlying_assets`. -/
structure WithdrawRequest where
  eth_destination : String
  aurora_destination : String
  network_details : NetworkDetails
deriving DecidableEq

/-- One invocation of `create_and_sign_withdrawal` (lines 230–240): the
transfer whose build-hash-and-sign round is initiated. -/
structure SignInitiation where
  token_address : String
  recipient : String
  amount : Nat
  path : String
  network_details : NetworkDetails
deriving DecidableEq

/-- Line 18. -/
def ETH_TREASURY_PATH : String := "eth-treasury"

/-- Line 19. -/
def AURORA_TREASURY_PATH : String := "aurora-treasury"

/-- The signing loop (lines 220–243): one initiation per fund asset with a
positive balance, full held quantity, destination and derivation path chosen
by asset name. -/
def signInitiations (assets : List AssetInfo) (ub : List (String × Nat))
    (request : WithdrawRequest) : List SignInitiation :=
  assets.filterMap fun a =>
    match lookupA ub a.contract_address with
    | some bal =>
      if 0 < bal then
        some { token_address := a.contract_address
               recipient := if a.name = "ETH" then request.eth_destination
                 else request.aurora_destination
               amount := bal
               path := if a.name = "ETH" then ETH_TREASURY_PATH else AURORA_TREASURY_PATH
               network_details := request.network_details }
      else none
    | none => none

/-- The clearing loop (lines 246–252): every present entry of the caller's
row for a fund asset is set to 0. -/
def zeroEntries (assets : List AssetInfo) (m : List (String × Nat)) :
    List (String × Nat) :=
  assets.foldl (fun m a => if (lookupA m a.contract_address).isSome
    then upsertA m a.contract_address 0 else m) m

/-- Lines 211–255: `withdraw_underlying_assets`.  Panics (`none`) when the
caller has no ledger row; otherwise initiates one signing round per asset with
a positive balance (destination and derivation path chosen by asset name) and
then zeroes every present ledger entry of the caller for the fund's assets —
in the same invocation, before any signing result can exist. -/
def withdraw_underlying_assets (s : TokenState) (sender_id : String)
    (request : WithdrawRequest) : Option (TokenState × List SignInitiation) :=
  match lookupA s.user_balances sender_id with
  | none => none
  | some ub =>
    some ({ s with user_balances := upsertA s.user_balances sender_id (zeroEntries s.assets ub) },
          signInitiations s.assets ub request)

/-- An `ft_transfer` function-call promise on the stable-asset ledger. -/
structure FtTransferCall where
  token_contract : String
  receiver_id : String
  amount : Nat
  attached_yocto : Nat
deriving DecidableEq

/-- Lines 190–209: `withdraw_in_usdc`.  Panics (`none`) iff the caller has no
ledger row; otherwise issues one `ft_transfer {receiver_id: caller, amount}`
on the USDC contract (1 yocto attached) and touches no state. -/
def withdraw_in_usdc (s : TokenState) (sender_id : String) (amount : Nat) :
    Option (TokenState × FtTransferCall) :=
  if (lookupA s.user_balances sender_id).isSome then
    some (s, { token_contract := s.usdc_contract, receiver_id := sender_id,
               amount := amount, attached_yocto := 1 })
  else none

/-- Lines 364–388: `ft_on_transfer`.  Panics (`none`) unless the calling token
contract is the configured USDC account; an empty instruction payload starts
deposit processing and returns 0 unused tokens, a non-empty payload starts
nothing and returns the full amount.  The result is the (unchanged) state,
whether the deposit pipeline was started, and the returned unused amount. -/
def ft_on_transfer (s : TokenState) (predecessor : String) (sender_id : String)
    (amount : Nat) (msg : String) : Option (TokenState × Bool × Nat) :=
  if predecessor = s.usdc_contract then
    if msg = "" then some (s, true, 0) else some (s, false, amount)
  else none

/-! ## The cross-chain transfer transaction (lines 296–331) -/

/-- The unsigned EIP-1559 transaction assembled by `TransactionBuilder` (the
`omni_transaction` crate only stores these fields as given). -/
structure EVMTransaction where
  chain_id : Nat
  nonce : Nat
  -- the source field is `to`; `to` is a Lean keyword
  to_address : List Nat
  value : Nat
  input : List Nat
  gas_limit : Nat
  max_fee_per_gas : Nat
  max_priority_fee_per_gas : Nat
deriving DecidableEq

/-- `u128::to_be_bytes` (line 329): 16 bytes, most significant first. -/
def u128ToBeBytes (n : Nat) : List Nat :=
  (List.range 16).map fun i => n / 2 ^ (8 * (15 - i)) % 256

/-- Lines 320–331: `construct_erc20_transfer_data`; `to` is the 20-byte
address produced by `parse_eth_address` (external crate). -/
def construct_erc20_transfer_data (to_addr : List Nat) (amount : Nat) : List Nat :=
  [0xa9, 0x05, 0x9c, 0xbb] ++ List.replicate 12 0 ++ to_addr ++ List.replicate 16 0
    ++ u128ToBeBytes amount

/-- Lines 296–318: `construct_erc20_transfer_tx`, over addresses already
parsed to 20-byte form by `parse_eth_address` (external crate). -/
def construct_erc20_transfer_tx (token_address recipient_address : List Nat)
    (amount : Nat) (network_details : NetworkDetails) : EVMTransaction :=
  { nonce := network_details.eth_nonce
    to_address := token_address
    value := 0
    input := construct_erc20_transfer_data recipient_address amount
    max_priority_fee_per_gas := network_details.max_priority_fee_per_gas
    max_fee_per_gas := network_details.max_fee_per_gas
    gas_limit := network_details.gas_limit
    chain_id := network_details.chain_id }

/-- Specification-side big-endian encoding: `w` base-256 digits of `n`, most
significant first. -/
def beDigits : Nat → Nat → List Nat
  | 0, _ => []
  | w + 1, n => beDigits w (n / 256) ++ [n % 256]



/-! ## Helper lemmas -/

theorem lookupA_upsertA_self {α : Type} (m : List (String × α)) (k : String) (v : α) :
    lookupA (upsertA m k v) k = some v := by
  induction m with
  | nil => simp [upsertA, lookupA]
  | cons p rest ih =>
    by_cases h : p.1 = k
    · simp [upsertA, h, lookupA]
    · simp [upsertA, h, lookupA, ih]

theorem lookupA_upsertA_ne {α : Type} (m : List (String × α)) (k k' : String) (v : α)
    (h : k' ≠ k) : lookupA (upsertA m k v) k' = lookupA m k' := by
  induction m with
  | nil => simp [upsertA, lookupA, Ne.symm h]
  | cons p rest ih =>
    by_cases hp : p.1 = k
    · subst hp
      simp [upsertA, lookupA, Ne.symm h]
    · by_cases hp' : p.1 = k'
      · simp [upsertA, hp, lookupA, hp', h]
      · simp [upsertA, hp, lookupA, hp', ih]

/-- With pairwise-distinct keys, `lookupA` finds exactly the stored pair. -/
theorem lookupA_of_mem_nodup {α : Type} (m : List (String × α)) (k : String) (v : α)
    (hnd : (m.map Prod.fst).Nodup) (hmem : (k, v) ∈ m) : lookupA m k = some v := by
  induction m with
  | nil => cases hmem
  | cons p rest ih =>
    rcases List.mem_cons.mp hmem with heq | htail
    · rw [heq.symm] at hmem ⊢
      simp [lookupA]
    · have hk : k ∈ rest.map Prod.fst := by
        have : (k, v).1 ∈ rest.map Prod.fst := List.mem_map_of_mem Prod.fst htail
        exact this
      have hne : p.1 ≠ k := by
        intro hEq
        exact (List.nodup_cons.mp hnd).1 (hEq ▸ hk)
      simp [lookupA, hne, ih (List.nodup_cons.mp hnd).2 htail]

/-- `l.take (min n l.length) = l.take n`. -/
theorem take_min_length {α : Type} (l : List α) (n : Nat) :
    l.take (min n l.length) = l.take n := by
  rcases Nat.le_total n l.length with h | h
  · rw [Nat.min_eq_left h]
  · rw [Nat.min_eq_right h, List.take_length, List.take_of_length_le h]

/-! ## Claims C1–C3 -/

/-- C1 (the code contradicts it): when the deployment saga fails, the
completion callback is supposed to refund the entire originally attached value
to the original caller.  The callback instead transfers
`env::attached_deposit()` to `env::predecessor_account_id()`.  In the NEAR
runtime the callback receipt is scheduled by the factory itself via
`Self::ext(env::current_account_id())` with no attached deposit, so inside the
callback the predecessor is the factory's own account and the attached deposit
is 0.  Concretely: `alice.testnet` created a fund attaching `5 * 10^24` yocto
and deployment failed; the callback runs with predecessor `factory.testnet`
and deposit 0, issues the transfer of 0 to the factory itself (not `5 * 10^24`
to `alice.testnet`), inserts nothing, and returns false. -/
theorem on_fund_created_callback_failure_misdirects_refund :
    on_fund_created_callback
      { owner_id := "owner.testnet", funds := [], fund_creation_deposit := 10 ^ 24 }
      { predecessor_account_id := "factory.testnet", current_account_id := "factory.testnet",
        attached_deposit := 0, block_timestamp := 7 }
      "myfund"
      { name := "Fund", symbol := "FND", description := none, assets := [] }
      "myfund.factory.testnet" false
    = ({ owner_id := "owner.testnet", funds := [], fund_creation_deposit := 10 ^ 24 },
       [{ receiver_id := "factory.testnet", amount := 0 }], false)
    ∧ ({ receiver_id := "factory.testnet", amount := 0 } : Transfer)
        ≠ { receiver_id := "alice.testnet", amount := 5 * 10 ^ 24 } :=
  ⟨rfl, by decide⟩

/-- C2 is false as stated: with an empty registry and `from_index = 1 > size`,
`get_funds` hits `keys[1..0]`, which panics, instead of returning the empty
list the claim promises for `from_index ≥ size`. -/
theorem get_funds_from_beyond_size_panics :
    get_funds { owner_id := "owner", funds := [], fund_creation_deposit := 0 } 1 0
      ≠ Except.ok [] := by
  intro h
  rw [show get_funds { owner_id := "owner", funds := [], fund_creation_deposit := 0 } 1 0
        = Except.error "slice index starts after slice end" from rfl] at h
  exact Except.noConfusion h

/-- C2 (amended): `get_funds` returns the registry entries in insertion order
over the clamped window `[from_index, min(from_index + limit, size))` whenever
`from_index ≤ size` (and the 32-bit index arithmetic does not truncate), the
window being exactly `drop from_index` then `take limit`; when
`from_index > size` the slice bounds are invalid and the call fails with a
range error instead of returning an empty list; and it fails with the index
error when `from_index` cannot be represented as a (32-bit) `usize`. -/
theorem get_funds_window_spec :
    (∀ (s : FactoryState) (from_index limit : Nat),
        (s.funds.map Prod.fst).Nodup →
        from_index + limit < 2 ^ 32 →
        from_index ≤ s.funds.length →
        get_funds s from_index limit = Except.ok ((s.funds.drop from_index).take limit)) ∧
    (∀ (s : FactoryState) (from_index limit : Nat),
        from_index < 2 ^ 32 →
        from_index + limit < 2 ^ 64 →
        s.funds.length < from_index →
        get_funds s from_index limit = Except.error "slice index starts after slice end") ∧
    (∀ (s : FactoryState) (from_index limit : Nat),
        2 ^ 32 ≤ from_index →
        get_funds s from_index limit = Except.error "Invalid from_index") := by
  refine ⟨?_, ?_, ?_⟩
  · intro s from_index limit hnd hlt hle
    have h32 : from_index < 2 ^ 32 := Nat.lt_of_le_of_lt (Nat.le_add_right _ _) hlt
    have h64 : from_index + limit < 2 ^ 64 := Nat.lt_trans hlt (by norm_num)
    have hmod : (from_index + limit) % 2 ^ 32 = from_index + limit := Nat.mod_eq_of_lt hlt
    have hkl : (s.funds.map Prod.fst).length = s.funds.length := List.length_map _ _
    have hstart : from_index ≤ min ((from_index + limit) % 2 ^ 32) (s.funds.map Prod.fst).length := by
      rw [hmod, hkl]
      exact le_min (Nat.le_add_right _ _) hle
    unfold get_funds
    rw [if_pos h32, if_pos h64, if_pos hstart]
    congr 1
    rw [hmod, hkl]
    have e1 : min (from_index + limit) s.funds.length - from_index
        = min limit (s.funds.length - from_index) := by omega
    rw [e1]
    have e2 : ((s.funds.map Prod.fst).drop from_index).take
          (min limit (s.funds.length - from_index))
        = ((s.funds.map Prod.fst).drop from_index).take limit := by
      have hdl : ((s.funds.map Prod.fst).drop from_index).length
          = s.funds.length - from_index := by simp
      rw [← hdl, take_min_length]
    rw [e2, ← List.map_drop, ← List.map_take, List.map_map]
    have e3 : ∀ p ∈ (s.funds.drop from_index).take limit,
        ((fun k => (k, (lookupA s.funds k).getD defaultFund)) ∘ Prod.fst) p = p := by
      intro p hp
      have hpmem : p ∈ s.funds := List.mem_of_mem_drop (List.mem_of_mem_take hp)
      have : lookupA s.funds p.1 = some p.2 :=
        lookupA_of_mem_nodup s.funds p.1 p.2 hnd hpmem
      simp [Function.comp, this]
    rw [List.map_congr_left e3]
    exact List.map_id _
  · intro s from_index limit h32 h64 hgt
    have hkl : (s.funds.map Prod.fst).length = s.funds.length := List.length_map _ _
    have hne : ¬ from_index ≤ min ((from_index + limit) % 2 ^ 32) (s.funds.map Prod.fst).length := by
      rw [hkl]
      intro hcon
      exact absurd (le_trans hcon (min_le_right _ _)) (Nat.not_le_of_lt hgt)
    unfold get_funds
    rw [if_pos h32, if_pos h64, if_neg hne]
  · intro s from_index limit h32
    unfold get_funds
    rw [if_neg (Nat.not_lt_of_le h32)]

/-- Witness for `get_funds_window_spec` at concrete inputs: a two-entry
registry read with `from_index = 1, limit = 5` (truncated window), with
`from_index = 3 > size` (range error), and with `from_index = 2^32`
(unrepresentable index error). -/
theorem get_funds_window_spec_witness :
    get_funds ⟨"o", [("a", defaultFund), ("b", defaultFund)], 0⟩ 1 5
      = Except.ok [("b", defaultFund)]
    ∧ get_funds ⟨"o", [("a", defaultFund), ("b", defaultFund)], 0⟩ 3 1
      = Except.error "slice index starts after slice end"
    ∧ get_funds ⟨"o", ([] : List (String × Fund)), 0⟩ (2 ^ 32) 0
      = Except.error "Invalid from_index" :=
  ⟨get_funds_window_spec.1 _ 1 5 (by decide) (by decide) (by decide),
   get_funds_window_spec.2.1 _ 3 1 (by decide) (by decide) (by decide),
   get_funds_window_spec.2.2 _ (2 ^ 32) 0 (by decide)⟩

/-- C3: `create_fund` succeeds only if the asset weights sum to 100 (as the
checked `u8` sum); with any other weight sum it fails with a validation error
— no deployment batch is issued and the fund registry is untouched (a
successful call also leaves the registry unchanged: registration happens only
in the completion callback). -/
theorem create_fund_weight_validation :
    (∀ (wasmLen : Nat) (validAccount : String → Bool) (s : FactoryState) (env : HostEnv)
        (pfx : String) (metadata : FundMetadata) (public_key : Option String),
        weightSum metadata.assets ≠ some 100 →
        ∃ e, create_fund wasmLen validAccount s env pfx metadata public_key
          = Except.error e) ∧
    (∀ (wasmLen : Nat) (validAccount : String → Bool) (s : FactoryState) (env : HostEnv)
        (pfx : String) (metadata : FundMetadata) (public_key : Option String)
        (out : FactoryState × CreateFundBatch),
        create_fund wasmLen validAccount s env pfx metadata public_key = Except.ok out →
        weightSum metadata.assets = some 100 ∧ out.1 = s ∧ out.1.funds = s.funds) := by
  constructor
  · intro wasmLen validAccount s env pfx metadata public_key hw
    unfold create_fund
    by_cases hd : env.attached_deposit < s.fund_creation_deposit
    · exact ⟨"Insufficient deposit for fund creation", by rw [if_pos hd]⟩
    · exact ⟨"Total weight must be 100%", by rw [if_neg hd, if_pos hw]⟩
  · intro wasmLen validAccount s env pfx metadata public_key out hok
    unfold create_fund at hok
    by_cases hd : env.attached_deposit < s.fund_creation_deposit
    · rw [if_pos hd] at hok
      exact Except.noConfusion hok
    · rw [if_neg hd] at hok
      by_cases hw : weightSum metadata.assets ≠ some 100
      · rw [if_pos hw] at hok
        exact Except.noConfusion hok
      · rw [if_neg hw] at hok
        refine ⟨Decidable.of_not_not hw, ?_⟩
        by_cases hmin : env.attached_deposit
            < satU128 (satU128 (NEAR_PER_STORAGE * wasmLen) + MILLINEAR_100)
        · rw [if_pos hmin] at hok
          exact Except.noConfusion hok
        · rw [if_neg hmin] at hok
          by_cases hva : validAccount (pfx ++ "." ++ env.current_account_id) = true
          · rw [if_pos hva] at hok
            have : out = (s, _) := (Except.ok.injEq _ _).mp hok.symm
            rw [this]
            exact ⟨rfl, rfl⟩
          · rw [if_neg hva] at hok
            exact Except.noConfusion hok

/-- Witness for `create_fund_weight_validation`: a metadata whose weights sum
to 99 is rejected, and a successful creation with weights 60 + 40 leaves the
registry unchanged. -/
theorem create_fund_weight_validation_witness :
    (∃ e, create_fund 1 (fun _ => true)
        { owner_id := "o", funds := [], fund_creation_deposit := 0 }
        { predecessor_account_id := "alice.testnet", current_account_id := "factory.testnet",
          attached_deposit := 10 ^ 24, block_timestamp := 0 }
        "f"
        { name := "F", symbol := "F", description := none,
          assets := [{ name := "ETH", contract_address := "0xa", weight := 60 },
                     { name := "AUR", contract_address := "0xb", weight := 39 }] }
        none = Except.error e) ∧
    (weightSum [{ name := "ETH", contract_address := "0xa", weight := 60 },
                { name := "AUR", contract_address := "0xb", weight := 40 }] = some 100) := by
  constructor
  · exact (create_fund_weight_validation.1 1 (fun _ => true)
      { owner_id := "o", funds := [], fund_creation_deposit := 0 }
      { predecessor_account_id := "alice.testnet", current_account_id := "factory.testnet",
        attached_deposit := 10 ^ 24, block_timestamp := 0 }
      "f"
      { name := "F", symbol := "F", description := none,
        assets := [{ name := "ETH", contract_address := "0xa", weight := 60 },
                   { name := "AUR", contract_address := "0xb", weight := 39 }] }
      none (by decide))
  · decide


/-! ## Concrete example states shared by the token-contract claims -/

def assetsAB : List AssetInfo :=
  [{ name := "ETH", contract_address := "0xaaa", weight := 60 },
   { name := "AURORA", contract_address := "0xbbb", weight := 40 }]

def stateAB : TokenState :=
  { total_assets := 0, assets := assetsAB, owner_id := "owner", user_balances := [],
    usdc_contract := USDC_CONTRACT_ID, oracle_contract := "priceoracle.testnet",
    latest_signed_txs := [] }

def assetsCD : List AssetInfo :=
  [{ name := "C", contract_address := "0xccc", weight := 50 },
   { name := "D", contract_address := "0xddd", weight := 50 }]

def stateCD : TokenState :=
  { total_assets := 0, assets := assetsCD, owner_id := "owner", user_balances := [],
    usdc_contract := USDC_CONTRACT_ID, oracle_contract := "priceoracle.testnet",
    latest_signed_txs := [] }

def stateWithRow : TokenState :=
  { stateAB with user_balances := [("alice", [("0xaaa", 30)])] }

/-- The state after the partial commit of `process_deposit_partial_commit`. -/
def stateABpartial : TokenState :=
  { stateAB with total_assets := 100, user_balances := [("alice", [("0xaaa", 30)])] }

/-- The state after the full allocation of `deposit_allocation_example`. -/
def stateABallocated : TokenState :=
  { stateAB with total_assets := 100,
                 user_balances := [("alice", [("0xaaa", 30), ("0xbbb", 40)])] }

/-! ## Lemmas about the zeroing loop of `withdraw_underlying_assets` -/

theorem lookupA_zeroEntries_stays (assets : List AssetInfo) (m : List (String × Nat))
    (addr : String) (h : lookupA m addr = some 0) :
    lookupA (zeroEntries assets m) addr = some 0 := by
  induction assets generalizing m with
  | nil => exact h
  | cons a rest ih =>
    rw [zeroEntries, List.foldl_cons]
    by_cases ha : a.contract_address = addr
    · rw [ha]
      have hs : (lookupA m addr).isSome := by rw [h]; rfl
      rw [if_pos hs]
      exact ih _ (lookupA_upsertA_self m addr 0)
    · by_cases hsm : (lookupA m a.contract_address).isSome
      · rw [if_pos hsm]
        refine ih _ ?_
        rw [lookupA_upsertA_ne m a.contract_address addr 0 (fun hh => ha hh.symm)]
        exact h
      · rw [if_neg hsm]
        exact ih _ h

theorem lookupA_zeroEntries (assets : List AssetInfo) (m : List (String × Nat))
    (addr : String) (hsome : (lookupA m addr).isSome)
    (hmem : addr ∈ assets.map AssetInfo.contract_address) :
    lookupA (zeroEntries assets m) addr = some 0 := by
  induction assets generalizing m with
  | nil => cases hmem
  | cons a rest ih =>
    rw [zeroEntries, List.foldl_cons]
    by_cases ha : a.contract_address = addr
    · rw [ha]
      rw [if_pos hsome]
      exact lookupA_zeroEntries_stays rest _ addr (lookupA_upsertA_self m addr 0)
    · have hmem' : addr ∈ rest.map AssetInfo.contract_address := by
        rcases List.mem_cons.mp hmem with heq | ht
        · exact absurd heq.symm ha
        · exact ht
      by_cases hsm : (lookupA m a.contract_address).isSome
      · rw [if_pos hsm]
        refine ih _ ?_ hmem'
        rw [lookupA_upsertA_ne m a.contract_address addr 0 (fun hh => ha hh.symm)]
        exact hsome
      · rw [if_neg hsm]
        exact ih _ hsome hmem'

/-! ## Claims C4–C10 -/

/-- C4 is false as stated: with fund assets `0xaaa` (weight 60) and `0xbbb`
(weight 40) and a resolved price map containing only `0xaaa` (multiplier 2,
decimals 0), processing a deposit of 100 still commits: `0xaaa` is credited 30
while `0xbbb` — an asset of the fund with no resolved price — gets no entry,
and total supply increases by the full 100.  A partial per-asset allocation
(some assets credited, others not) is committed. -/
theorem process_deposit_partial_commit :
    process_deposit_with_prices stateAB "alice" 100 (some [("0xaaa", 2, 0)])
      = some stateABpartial
    ∧ lookupA [("0xaaa", (30 : Nat))] "0xbbb" = none
    ∧ ({ name := "AURORA", contract_address := "0xbbb", weight := 40 } : AssetInfo)
        ∈ stateAB.assets :=
  ⟨by decide, by decide, by decide⟩

/-- C4 (amended): each deposit-processing invocation is atomic — when price
fetching fails, or the price data is stale, the invocation aborts with no
ledger mutation and no total-supply change; when it commits, total supply
increases by exactly the deposited amount.  However, commitment does not
require every fund asset to have been priced: assets missing from the
resolved price map are silently skipped, so a partial per-asset allocation can
be committed (see the accompanying partial-commit instance). -/
theorem deposit_atomic_commit_spec :
    (∀ (ta : String → Option String) (s : TokenState) (sender : String) (amount ct : Nat),
        deposit_pipeline ta s sender amount ct none = none) ∧
    (∀ (ta : String → Option String) (s : TokenState) (sender : String) (amount ct : Nat)
        (od : OraclePriceData),
        od.timestamp ≤ ct →
        od.recency_duration_sec * 1000000000 ≤ ct - od.timestamp →
        deposit_pipeline ta s sender amount ct (some od) = none) ∧
    (∀ (s : TokenState) (sender : String) (amount : Nat)
        (res : Option (List (String × Nat × Nat))) (s2 : TokenState),
        process_deposit_with_prices s sender amount res = some s2 →
        s2.total_assets = s.total_assets + amount ∧ s2.assets = s.assets) := by
  refine ⟨?_, ?_, ?_⟩
  · intro ta s sender amount ct
    rfl
  · intro ta s sender amount ct od h1 h2
    unfold deposit_pipeline
    have hcb : get_asset_prices_callback ta s.assets ct (some od) = none := by
      simp only [get_asset_prices_callback]
      rw [if_neg]
      rintro ⟨c1, c2, c3⟩
      omega
    rw [hcb]
    rfl
  · intro s sender amount res s2 h
    unfold process_deposit_with_prices at h
    cases res with
    | none => exact Option.noConfusion h
    | some ap =>
      cases hc : creditAssets ap amount s.assets ((lookupA s.user_balances sender).getD [])
        with
      | none =>
        simp only [hc] at h
        exact Option.noConfusion h
      | some ub =>
        simp only [hc] at h
        by_cases ht : s.total_assets + amount ≤ U128_MAX
        · rw [if_pos ht] at h
          have he := Option.some.inj h
          rw [← he]
          exact ⟨rfl, rfl⟩
        · rw [if_neg ht] at h
          exact Option.noConfusion h

/-- Witness for `deposit_atomic_commit_spec`: stale oracle data (timestamp 0,
recency 1 s, current time 2 s in nanoseconds) aborts the deposit pipeline. -/
theorem deposit_atomic_commit_spec_witness :
    deposit_pipeline (fun _ => none) stateAB "alice" 100 2000000000
      (some { timestamp := 0, recency_duration_sec := 1, prices := [] }) = none :=
  deposit_atomic_commit_spec.2.1 (fun _ => none) stateAB "alice" 100 2000000000
    { timestamp := 0, recency_duration_sec := 1, prices := [] } (by decide) (by decide)

/-- C5: for a caller with a ledger row, `withdraw_underlying_assets` initiates
a build-and-sign round for exactly the assets with a positive ledger quantity,
each for the full held quantity (destination and derivation path by asset
class), and zeroes the caller's ledger entry for every present asset in the
same invocation — the resulting state is a function of the inputs alone, fixed
before any signing result exists, for signing success and failure alike. -/
theorem withdraw_underlying_assets_spec (s : TokenState) (sender_id : String)
    (request : WithdrawRequest) (ub : List (String × Nat))
    (hrow : lookupA s.user_balances sender_id = some ub) :
    withdraw_underlying_assets s sender_id request
      = some ({ s with user_balances := upsertA s.user_balances sender_id (zeroEntries s.assets ub) }, signInitiations s.assets ub request)
    ∧ (∀ a ∈ s.assets, ∀ bal, lookupA ub a.contract_address = some bal → 0 < bal →
        (a.name = "ETH" →
          ({ token_address := a.contract_address, recipient := request.eth_destination, amount := bal, path := ETH_TREASURY_PATH, network_details := request.network_details } : SignInitiation) ∈ signInitiations s.assets ub request)
        ∧ (a.name ≠ "ETH" →
          ({ token_address := a.contract_address, recipient := request.aurora_destination, amount := bal, path := AURORA_TREASURY_PATH, network_details := request.network_details } : SignInitiation) ∈ signInitiations s.assets ub request))
    ∧ (∀ g ∈ signInitiations s.assets ub request, ∃ a, a ∈ s.assets
        ∧ g.token_address = a.contract_address
        ∧ lookupA ub a.contract_address = some g.amount ∧ 0 < g.amount)
    ∧ (∀ a ∈ s.assets, (lookupA ub a.contract_address).isSome →
        lookupA (zeroEntries s.assets ub) a.contract_address = some 0)
    ∧ lookupA (upsertA s.user_balances sender_id (zeroEntries s.assets ub)) sender_id
        = some (zeroEntries s.assets ub) := by
  refine ⟨?_, ?_, ?_, ?_, lookupA_upsertA_self _ _ _⟩
  · unfold withdraw_underlying_assets
    simp only [hrow]
  · intro a ha bal hb hpos
    constructor
    · intro hname
      refine List.mem_filterMap.mpr ⟨a, ha, ?_⟩
      simp only [hb]
      rw [if_pos hpos]
      simp [hname]
    · intro hname
      refine List.mem_filterMap.mpr ⟨a, ha, ?_⟩
      simp only [hb]
      rw [if_pos hpos]
      simp [hname]
  · intro g hg
    obtain ⟨a, ha, hfa⟩ := List.mem_filterMap.mp hg
    cases hl : lookupA ub a.contract_address with
    | none =>
      simp only [hl] at hfa
      exact Option.noConfusion hfa
    | some bal =>
      simp only [hl] at hfa
      by_cases hpos : 0 < bal
      · rw [if_pos hpos] at hfa
        have he := Option.some.inj hfa
        refine ⟨a, ha, ?_, ?_, ?_⟩
        · rw [← he]
        · rw [← he]; exact hl
        · rw [← he]; exact hpos
      · rw [if_neg hpos] at hfa
        exact Option.noConfusion hfa
  · intro a ha hsome
    exact lookupA_zeroEntries s.assets ub a.contract_address hsome
      (List.mem_map_of_mem AssetInfo.contract_address ha)

/-- Concrete withdrawal request used by witnesses. -/
def ndW : NetworkDetails :=
  { chain_id := 1, eth_nonce := 2, max_priority_fee_per_gas := 3,
    max_fee_per_gas := 4, gas_limit := 5 }

def reqW : WithdrawRequest :=
  { eth_destination := "0xe1", aurora_destination := "0xe2", network_details := ndW }

/-- Witness for `withdraw_underlying_assets_spec`: alice holds 30 of `0xaaa`
(an asset of the fund), and the clearing loop zeroes that entry. -/
theorem withdraw_underlying_assets_spec_witness :
    lookupA (zeroEntries stateWithRow.assets [("0xaaa", 30)]) "0xaaa" = some 0 :=
  (withdraw_underlying_assets_spec stateWithRow "alice" reqW [("0xaaa", 30)]
      (by decide)).2.2.2.1
    { name := "ETH", contract_address := "0xaaa", weight := 60 } (by decide) (by decide)

/-- C6: `withdraw_in_usdc` fails exactly when the caller has no ledger row (a
presence check only); with a row it issues exactly one `ft_transfer` of the
requested amount of the stable asset to the caller, and the contract state is
completely unchanged — no ledger entry decremented, total supply untouched. -/
theorem withdraw_in_usdc_spec :
    (∀ (s : TokenState) (sender : String) (amount : Nat),
        withdraw_in_usdc s sender amount = none ↔ lookupA s.user_balances sender = none) ∧
    (∀ (s : TokenState) (sender : String) (amount : Nat) (out : TokenState × FtTransferCall),
        withdraw_in_usdc s sender amount = some out →
        out.1 = s ∧ out.2 = { token_contract := s.usdc_contract, receiver_id := sender,
                              amount := amount, attached_yocto := 1 }) := by
  constructor
  · intro s sender amount
    unfold withdraw_in_usdc
    by_cases hs : (lookupA s.user_balances sender).isSome
    · rw [if_pos hs]
      constructor
      · intro h; exact Option.noConfusion h
      · intro h; rw [h] at hs; exact Bool.noConfusion hs
    · rw [if_neg hs]
      simp only [true_iff]
      exact Option.not_isSome_iff_eq_none.mp hs
  · intro s sender amount out h
    unfold withdraw_in_usdc at h
    by_cases hs : (lookupA s.user_balances sender).isSome
    · rw [if_pos hs] at h
      have he := Option.some.inj h
      rw [← he]
      exact ⟨rfl, rfl⟩
    · rw [if_neg hs] at h
      exact Option.noConfusion h

/-- The transfer issued in the witness of `withdraw_in_usdc_spec`. -/
def ftAlice7 : FtTransferCall :=
  { token_contract := USDC_CONTRACT_ID, receiver_id := "alice", amount := 7,
    attached_yocto := 1 }

/-- Witness for `withdraw_in_usdc_spec`: bob has no row (the call fails);
alice has a row, gets the transfer of the requested 7, and the state is
untouched. -/
theorem withdraw_in_usdc_spec_witness :
    (withdraw_in_usdc stateWithRow "bob" 5 = none
      ↔ lookupA stateWithRow.user_balances "bob" = none)
    ∧ ((stateWithRow, ftAlice7).1 = stateWithRow
      ∧ (stateWithRow, ftAlice7).2
        = { token_contract := stateWithRow.usdc_contract, receiver_id := "alice", amount := 7, attached_yocto := 1 }) :=
  ⟨withdraw_in_usdc_spec.1 stateWithRow "bob" 5,
   withdraw_in_usdc_spec.2 stateWithRow "alice" 7 (stateWithRow, ftAlice7) (by decide)⟩

/-- `beDigits w n` lists the base-256 digits `n / 256^(w-1-i) % 256`. -/
theorem beDigits_eq_range (w : Nat) : ∀ n,
    beDigits w n = (List.range w).map fun i => n / 256 ^ (w - 1 - i) % 256 := by
  induction w with
  | zero => intro n; rfl
  | succ w ih =>
    intro n
    rw [beDigits, ih (n / 256), List.range_succ, List.map_append]
    congr 1
    · apply List.map_congr_left
      intro i hi
      have hiw : i < w := List.mem_range.mp hi
      rw [Nat.div_div_eq_div_mul]
      have h1 : (256 : Nat) * 256 ^ (w - 1 - i) = 256 ^ (w - 1 - i + 1) :=
        (pow_succ (256 : Nat) (w - 1 - i)).symm ▸ (mul_comm _ _)
      have h2 : w - 1 - i + 1 = w + 1 - 1 - i := by omega
      rw [h1, h2]
    · simp

/-- `u128::to_be_bytes` produces exactly the 16 base-256 digits. -/
theorem u128ToBeBytes_eq_beDigits (n : Nat) : u128ToBeBytes n = beDigits 16 n := by
  rw [beDigits_eq_range]
  apply List.map_congr_left
  intro i hi
  have : (2 : Nat) ^ (8 * (15 - i)) = 256 ^ (16 - 1 - i) := by
    rw [pow_mul]
    norm_num
  rw [this]

/-- C7: the unsigned cross-chain transfer transaction carries
`to = token contract address`, `value = 0`, a 68-byte data field equal to the
4-byte `transfer(address,uint256)` selector `0xa9059cbb`, 12 zero bytes, the
20-byte recipient, 16 zero bytes, and the 16-byte big-endian amount; nonce,
fee parameters, gas limit and chain id are taken from the supplied network
parameters. -/
theorem construct_erc20_transfer_tx_spec
    (token_address recipient_address : List Nat) (amount : Nat) (nd : NetworkDetails)
    (hrec : recipient_address.length = 20) :
    (construct_erc20_transfer_tx token_address recipient_address amount nd).to_address
        = token_address
    ∧ (construct_erc20_transfer_tx token_address recipient_address amount nd).value = 0
    ∧ (construct_erc20_transfer_tx token_address recipient_address amount nd).input.length
        = 68
    ∧ (construct_erc20_transfer_tx token_address recipient_address amount nd).input
        = [0xa9, 0x05, 0x9c, 0xbb] ++ List.replicate 12 0 ++ recipient_address
          ++ List.replicate 16 0 ++ beDigits 16 amount
    ∧ (construct_erc20_transfer_tx token_address recipient_address amount nd).nonce
        = nd.eth_nonce
    ∧ (construct_erc20_transfer_tx token_address recipient_address amount
        nd).max_priority_fee_per_gas = nd.max_priority_fee_per_gas
    ∧ (construct_erc20_transfer_tx token_address recipient_address amount
        nd).max_fee_per_gas = nd.max_fee_per_gas
    ∧ (construct_erc20_transfer_tx token_address recipient_address amount nd).gas_limit
        = nd.gas_limit
    ∧ (construct_erc20_transfer_tx token_address recipient_address amount nd).chain_id
        = nd.chain_id := by
  refine ⟨rfl, rfl, ?_, ?_, rfl, rfl, rfl, rfl, rfl⟩
  · simp [construct_erc20_transfer_tx, construct_erc20_transfer_data, u128ToBeBytes, hrec]
  · simp only [construct_erc20_transfer_tx, construct_erc20_transfer_data,
      u128ToBeBytes_eq_beDigits]

/-- Witness for `construct_erc20_transfer_tx_spec` at a concrete 20-byte
recipient: the data field has exactly 68 bytes. -/
theorem construct_erc20_transfer_tx_spec_witness :
    (construct_erc20_transfer_tx (List.replicate 20 1) (List.replicate 20 2) 3
        ndW).input.length = 68 :=
  (construct_erc20_transfer_tx_spec (List.replicate 20 1) (List.replicate 20 2) 3
    ndW (by decide)).2.2.1

/-- C8: an inbound stable-asset transfer notification with an empty
instruction payload is processed as a deposit (the pipeline is started and 0
unused tokens are returned); a non-empty payload starts no deposit processing
and the entire amount is returned unspent. -/
theorem ft_on_transfer_payload_spec :
    (∀ (s : TokenState) (predecessor sender : String) (amount : Nat),
        predecessor = s.usdc_contract →
        ft_on_transfer s predecessor sender amount "" = some (s, true, 0)) ∧
    (∀ (s : TokenState) (predecessor sender msg : String) (amount : Nat),
        predecessor = s.usdc_contract → msg ≠ "" →
        ft_on_transfer s predecessor sender amount msg = some (s, false, amount)) := by
  constructor
  · intro s predecessor sender amount hpred
    unfold ft_on_transfer
    rw [if_pos hpred, if_pos rfl]
  · intro s predecessor sender msg amount hpred hmsg
    unfold ft_on_transfer
    rw [if_pos hpred, if_neg hmsg]

/-- Witness for `ft_on_transfer_payload_spec`: an empty payload is processed
as a deposit returning 0; the payload `"x"` is rejected returning the full 5. -/
theorem ft_on_transfer_payload_spec_witness :
    ft_on_transfer stateAB USDC_CONTRACT_ID "alice" 5 "" = some (stateAB, true, 0)
    ∧ ft_on_transfer stateAB USDC_CONTRACT_ID "alice" 5 "x" = some (stateAB, false, 5) :=
  ⟨ft_on_transfer_payload_spec.1 stateAB USDC_CONTRACT_ID "alice" 5 rfl,
   ft_on_transfer_payload_spec.2 stateAB USDC_CONTRACT_ID "alice" "x" 5 rfl (by decide)⟩

/-- C9 is false as stated: the credited quantity is the floating-point value
truncated to an integer, not the exact `stableAmount * (weight/100) / price`.
With one fund asset of weight 50 priced at multiplier 3, decimals 0, a deposit
of 1 credits 0 — but the claimed formula gives `1 * (50/100) / 3 = 1/6 ≠ 0`. -/
theorem quantity_formula_counterexample :
    (((process_deposit_with_prices stateCD "carol" 1
          (some [("0xccc", 3, 0), ("0xddd", 3, 0)])).bind
        (fun s => lookupA s.user_balances "carol")).bind
      (fun b => lookupA b "0xccc")) = some 0
    ∧ ¬ ((0 : ℚ) = 1 * ((50 : ℚ) / 100) / ((3 : ℚ) / 10 ^ (0 : Nat))) := by
  constructor
  · decide
  · norm_num

/-- C9 (amended): the credited quantity is
`stableAmount * (weight/100) / price` evaluated in binary64 floating point and
truncated toward zero, with `price = multiplier / 10^decimals`.  In
particular, for prices `{0xaaa: 2.0, 0xbbb: 1.0}` (multiplier/decimals `(2,0)`
and `(1,0)`), weights `{0xaaa: 60, 0xbbb: 40}` and a deposit of 100,
processing credits the depositor exactly 30 units of `0xaaa` and 40 units of
`0xbbb`, and increments total supply by 100. -/
theorem deposit_allocation_example :
    process_deposit_with_prices stateAB "alice" 100
        (some [("0xaaa", 2, 0), ("0xbbb", 1, 0)])
      = some stateABallocated := by
  decide

/-- C10: `ft_on_transfer` aborts before any processing whenever the calling
token contract is not the fund's configured stable-asset account — so no
ledger or total-supply mutation can originate from any other token — and
`Contract::new` hard-codes that account. -/
theorem ft_on_transfer_usdc_only :
    (∀ (s : TokenState) (predecessor sender msg : String) (amount : Nat),
        predecessor ≠ s.usdc_contract →
        ft_on_transfer s predecessor sender amount msg = none) ∧
    (∀ (owner : String) (assets : List AssetInfo) (st : TokenState),
        Contract.new owner assets = some st → st.usdc_contract = USDC_CONTRACT_ID) := by
  constructor
  · intro s predecessor sender msg amount h
    unfold ft_on_transfer
    rw [if_neg h]
  · intro owner assets st h
    unfold Contract.new at h
    by_cases hw : weightSum assets ≠ some 100
    · rw [if_pos hw] at h
      exact Option.noConfusion h
    · rw [if_neg hw] at h
      have he := Option.some.inj h
      rw [← he]

/-- Witness for `ft_on_transfer_usdc_only`: a notification from
`evil.testnet` aborts, and a freshly initialised contract carries the
hard-coded USDC account. -/
theorem ft_on_transfer_usdc_only_witness :
    ft_on_transfer stateAB "evil.testnet" "alice" 1 "" = none
    ∧ stateAB.usdc_contract = USDC_CONTRACT_ID :=
  ⟨ft_on_transfer_usdc_only.1 stateAB "evil.testnet" "alice" "" 1 (by decide),
   ft_on_transfer_usdc_only.2 "owner" assetsAB stateAB (by decide)⟩

end Nexusfi
